import Mathlib

/-!
Verification development for the Data Ingestion Service of the
SSE-Anomaly-Detection-in-Manufacturing repository.

The definitions below are a shallow embedding of
dataingestion/dataingestionservice.py.  Pandas data frames of one row are
modelled as lists of cells, where a cell is an optional rational number and
the value none models a pandas NaN (a NULL sample).  Float64 arithmetic is
modelled with exact rationals: the claims under study only involve small
decimal literals, equality tests against 0 and 1, threshold comparisons and
zero filling, for which rationals and floats agree.  Separators are modelled
as single characters, matching their use as pandas csv separators.  File
system side effects (deleting input files, quarantining malformed copies,
rewriting the output store) are modelled by explicit state passing: an
IngestState carries the input directory listing and the parsed rows of the
output store, and the final write failure of the store is modelled by the
write_fails flag of the state.  Logging, the worker pool plumbing, the
per-file OSError skip and the keyboard interrupt are not modelled; in
multi-core mode the coordinator splits the candidate list in order
preserving shards, each worker processes its shard in order and the
coordinator concatenates the returned batches in pool order, which is
exactly an in-order traversal of the whole candidate list, and that is how
multi-core processing is embedded here.
-/

set_option maxHeartbeats 1000000

deriving instance DecidableEq for Except

attribute [local semireducible] Rat.mul Rat.add Rat.sub Rat.inv

/-- A cell of a one-row pandas data frame: none models NaN (a NULL value). -/
abbrev Cell := Option ℚ

/-- Configuration of one series type, from SeriesTypeConfiguration.
Paths, the datetime format string and the logging options are omitted:
datetime parsing of a file name is modelled by a per-file flag (see
SeriesFile), and paths play no role in the claims. -/
structure SeriesTypeConfiguration where
  series_type : String
  input_file_extension : String
  input_series_separator : Char
  output_series_separator : Char
  max_null_perc : ℚ
  max_consec_null : Nat
  null_filling_strategy : String
  duplicated_policy : String
  malformed_policy : String
deriving DecidableEq

/-- Service configuration, from DataIngestionConfiguration. -/
structure DataIngestionConfiguration where
  sample_size : Nat
  default_label : String
  starting_index : Nat
  max_series_per_run : Nat
  multi_core_enable : Bool
  multi_core_limit : Nat
  labeled : SeriesTypeConfiguration
  unlabeled : SeriesTypeConfiguration
deriving DecidableEq

/-- One file of the input directory.  The content field holds the raw bytes
of the file (st_size is zero exactly when content is empty); the flag
name_matches_datetime tells whether strptime succeeds on the file name
against the configured datetime format, in which case name_timestamp is the
parsed timestamp, and ctime is the file creation time used as fallback. -/
structure SeriesFile where
  name : String
  content : String
  name_matches_datetime : Bool
  name_timestamp : Int
  ctime : Int
deriving DecidableEq

/-- A canonical valid series row: the timestamp column, then the fields in
column order ANOMALOUS, sample_0, ..., sample_{N-1}.  The fields list is
exactly the column slice series_columns[1:] that duplicate detection
compares, the timestamp being excluded. -/
structure CanonicalRow where
  timestamp : Int
  fields : List Cell
deriving DecidableEq

/-- Total width of a canonical row, timestamp column included. -/
def CanonicalRow.width (r : CanonicalRow) : Nat :=
  1 + r.fields.length

/-- Outcome of processing one input series, from _process_series: a valid
row appended to the temporary data frame, or a malformed outcome with its
cause.  The dynamic parts of the cause strings (offending counts) are not
reproduced; the cause of an empty series is the exact string of the code. -/
inductive ProcessResult where
  | valid (row : CanonicalRow)
  | malformed (cause : String)
deriving DecidableEq

/-! ### Csv parsing (pd.read_csv with header=None and dtype=float64) -/

/-- Split a character list at every occurrence of the separator, the
semantics of the Python str.split with a one character separator. -/
def splitOnChar (c : Char) : List Char → List (List Char)
  | [] => [[]]
  | a :: rest =>
      let r := splitOnChar c rest
      if a = c then [] :: r
      else (a :: r.headD []) :: r.tail

/-- Tokens that pandas converts to NaN when reading a float64 column. -/
def nanTokens : List (List Char) :=
  ["nan".data, "NaN".data, "NAN".data, "NA".data, "N/A".data,
   "null".data, "NULL".data]

/-- Numeric value of a list of decimal digit characters. -/
def digitsVal (cs : List Char) : Nat :=
  cs.foldl (fun a c => 10 * a + (c.toNat - 48)) 0

/-- Parse one csv token as a float64 cell: the empty token and the pandas
NaN spellings give NaN, a decimal numeral with optional sign and fractional
part gives its value, anything else raises ValueError (modelled as error). -/
def parseFloatToken (cs : List Char) : Except Unit Cell :=
  if cs.isEmpty then .ok none
  else if decide (cs ∈ nanTokens) then .ok none
  else
    let sb : ℚ × List Char :=
      match cs with
      | '-' :: rest => (-1, rest)
      | '+' :: rest => (1, rest)
      | _ => (1, cs)
    let intPart := sb.2.takeWhile Char.isDigit
    let rest := sb.2.dropWhile Char.isDigit
    match rest with
    | [] =>
        if intPart.isEmpty then .error ()
        else .ok (some (sb.1 * (digitsVal intPart : ℚ)))
    | '.' :: frac =>
        if frac.all Char.isDigit && !(intPart.isEmpty && frac.isEmpty) then
          .ok (some (sb.1 * ((digitsVal intPart : ℚ) +
            (digitsVal frac : ℚ) / ((10 : ℚ) ^ frac.length))))
        else .error ()
    | _ => .error ()

/-- Read the file content as a csv table of float64 values, the model of
pd.read_csv(file, header=None, sep=sep, dtype=float64).  Blank lines are
skipped (the pandas default), a token that does not parse raises ValueError,
a file with no data rows raises EmptyDataError (a ValueError subclass), a
row longer than the first row raises ParserError (a ValueError subclass)
and a shorter row is padded with NaN to the width of the first row. -/
def read_csv (sep : Char) (content : List Char) : Except Unit (List (List Cell)) :=
  let lines := (splitOnChar '\n' content).filter (fun l => !l.isEmpty)
  match lines.mapM (fun l => (splitOnChar sep l).mapM parseFloatToken) with
  | .error e => .error e
  | .ok [] => .error ()
  | .ok (r0 :: rest) =>
      if rest.any (fun r => r0.length < r.length) then .error ()
      else .ok (r0 :: rest.map (fun r => r ++ List.replicate (r0.length - r.length) (none : Cell)))

/-! ### The series validator (_process_series) -/

/-- Timestamp of a series: the timestamp parsed from the file name when the
name matches the configured datetime format, the file creation time
otherwise (the fallback of _process_series). -/
def seriesTimestamp (file : SeriesFile) : Int :=
  if file.name_matches_datetime then file.name_timestamp else file.ctime

/-- The samples_delta quantity of _process_series: expected width
sample_size + 1 (the ANOMALOUS column included) minus the actual width. -/
def samples_delta (conf : DataIngestionConfiguration) (width : Nat) : Int :=
  (conf.sample_size : Int) + 1 - (width : Int)

/-- Width reconciliation of _process_series: truncate the trailing fields
when the row is wider than sample_size + 1, append NaN placeholders when it
is narrower. -/
def reconcileWidth (conf : DataIngestionConfiguration) (row : List Cell) : List Cell :=
  if samples_delta conf row.length < 0 then row.take (conf.sample_size + 1)
  else if 0 < samples_delta conf row.length then
    row ++ List.replicate (samples_delta conf row.length).toNat (none : Cell)
  else row

/-- Total number of NULL cells of the row, df.iloc[0].isnull().sum(). -/
def countNulls (row : List Cell) : Nat :=
  (row.filter (fun c => c.isNone)).length

/-- Greatest number of consecutive NULL cells of the row, the groupby and
cumsum computation of _process_series. -/
def maxConsecNulls (row : List Cell) : Nat :=
  (row.foldl
    (fun (p : Nat × Nat) c =>
      match c with
      | none => (max p.1 (p.2 + 1), p.2 + 1)
      | some _ => (p.1, p.2 * 0))
    (0, 0)).1

/-- Index of the closest non NULL cell at or before position i, if any. -/
def prevValidIdx (row : List Cell) (i : Nat) : Option Nat :=
  (((List.range (i + 1)).filter (fun j => (row.getD j none).isSome)).getLast?)

/-- Index of the closest non NULL cell strictly after position i, if any. -/
def nextValidIdx (row : List Cell) (i : Nat) : Option Nat :=
  (((List.range row.length).filter
      (fun j => decide (i < j) && (row.getD j none).isSome)).head?)

/-- Zero filling, df.fillna(0): every NaN becomes 0. -/
def zeroFill (row : List Cell) : List Cell :=
  row.map (fun c => some (c.getD 0))

/-- Forward filling, df.fillna(method=pad): a NaN takes the closest earlier
value, leading NaN cells are left in place. -/
def ffillRow (row : List Cell) : List Cell :=
  (List.range row.length).map (fun i =>
    match row.getD i none with
    | some v => some v
    | none =>
        match prevValidIdx row i with
        | some p => row.getD p none
        | none => none)

/-- Backward filling, df.fillna(method=backfill): a NaN takes the closest
later value, trailing NaN cells are left in place. -/
def bfillRow (row : List Cell) : List Cell :=
  (List.range row.length).map (fun i =>
    match row.getD i none with
    | some v => some v
    | none =>
        match nextValidIdx row i with
        | some n => row.getD n none
        | none => none)

/-- Linear interpolation over the positional index,
df.interpolate(method=linear, axis=1): an interior NaN is interpolated
between its closest valid neighbours, a trailing NaN takes the last valid
value, a leading NaN is left in place. -/
def linearFill (row : List Cell) : List Cell :=
  (List.range row.length).map (fun i =>
    match row.getD i none with
    | some v => some v
    | none =>
        match prevValidIdx row i, nextValidIdx row i with
        | some p, some n =>
            match row.getD p none, row.getD n none with
            | some a, some b =>
                some (a + (b - a) * (((i : ℚ) - (p : ℚ)) / ((n : ℚ) - (p : ℚ))))
            | _, _ => none
        | some p, none => row.getD p none
        | none, _ => none)

/-- Dispatch of the configured NULL filling strategy, the final else ladder
of _process_series.  The last branch calls df.fillna(method=strategy), for
which pandas accepts the spellings pad and ffill (forward) and backfill and
bfill (backward); any other string raises there and is excluded by the
configuration schema, so the model maps it to backward filling. -/
def applyNullFilling (strategy : String) (row : List Cell) : List Cell :=
  if strategy = "linearInterpolation" then linearFill row
  else if strategy = "zeroFill" then zeroFill row
  else if strategy = "ffill" || strategy = "pad" then ffillRow row
  else bfillRow row

/-- The series validator _process_series.  The checks run in the order of
the code: empty file, csv parse (the timestamp fallback happens before it
but has no observable effect beyond the chosen timestamp), single row,
labeled ANOMALOUS value in {0, 1}, synthetic ANOMALOUS -1 for unlabeled,
width reconciliation, NULL total threshold, consecutive NULL threshold, and
finally NULL filling and timestamp insertion.  The removal of the input
file and the optional quarantine copy are side effects handled by the
caller model (see ingest_run). -/
def process_series (conf : DataIngestionConfiguration) (ct : SeriesTypeConfiguration)
    (file : SeriesFile) : ProcessResult :=
  if file.content.length = 0 then .malformed "empty series"
  else
    match read_csv ct.input_series_separator file.content.data with
    | .error _ => .malformed "ValueError in parsing the series"
    | .ok rows =>
        if rows.length ≠ 1 then .malformed "multi-row series"
        else
          let row0 := rows.headD []
          if ct.series_type = "labeled" ∧ row0.getD 0 none ≠ some 0 ∧
              row0.getD 0 none ≠ some 1 then
            .malformed "invalid ANOMALOUS value"
          else
            let row1 := if ct.series_type = "unlabeled" then (some (-1) : Cell) :: row0 else row0
            let row2 := reconcileWidth conf row1
            if (countNulls row2 : ℚ) > ct.max_null_perc * (conf.sample_size : ℚ) then
              .malformed "NULL values threshold exceeded"
            else if ct.max_consec_null < maxConsecNulls row2 then
              .malformed "Consecutive NULL values threshold exceeded"
            else
              .valid ⟨seriesTimestamp file, applyNullFilling ct.null_filling_strategy row2⟩

/-- Fields of the canonical row carried by a processing outcome, the empty
list for a malformed outcome. -/
def processResultFields : ProcessResult → List Cell
  | .valid row => row.fields
  | .malformed _ => []

/-! ### Duplicate filtering (_ingest_series, persistence section) -/

/-- Worker of pd.DataFrame.duplicated with keep=first: a row is flagged
when its comparison key (the fields of the row, the timestamp column being
excluded by the subset argument) already occurred, either in the seen
accumulator or earlier in the list. -/
def dupFlagsAux (seen : List (List Cell)) : List CanonicalRow → List Bool
  | [] => []
  | r :: rest => decide (r.fields ∈ seen) :: dupFlagsAux (r.fields :: seen) rest

/-- The duplicates mask of _ingest_series:
out_df.duplicated(subset=series_columns[1:]), over the merged data frame. -/
def duplicatedMask (rows : List CanonicalRow) : List Bool :=
  dupFlagsAux [] rows

/-- Reset of the first k mask entries, duplicates_mask[:k] = False. -/
def resetLeading : Nat → List Bool → List Bool
  | _, [] => []
  | 0, mask => mask
  | k + 1, _ :: mask => false :: resetLeading k mask

/-- The mask actually applied by _ingest_series: the duplicated mask of the
merged frame with the entries of the pre existing slice reset to False. -/
def effectiveMask (pre new : List CanonicalRow) : List Bool :=
  resetLeading pre.length (duplicatedMask (pre ++ new))

/-- Drop of the flagged rows, out_df.drop(out_df[duplicates_mask].index). -/
def dropMasked : List CanonicalRow → List Bool → List CanonicalRow
  | [], _ => []
  | rows, [] => rows
  | r :: rest, b :: mask => if b then dropMasked rest mask else r :: dropMasked rest mask

/-- The duplicate filtering step of _ingest_series on the merged frame:
computes the effective mask, counts the flagged rows, and drops them when
there is at least one.  Returns the surviving rows and the flagged count. -/
def dedupStep (pre new : List CanonicalRow) : List CanonicalRow × Nat :=
  let mask := effectiveMask pre new
  let d := mask.count true
  (if 0 < d then dropMasked (pre ++ new) mask else pre ++ new, d)

/-- Rows surviving the duplicate filtering step. -/
def dedupResultRows (pre new : List CanonicalRow) : List CanonicalRow :=
  (dedupStep pre new).1

/-- Specification side description of the corrected duplicate law: keep a
row when its fields were seen neither in the accumulator nor earlier in the
list, accumulating the fields of every kept row.  Used only to state what
the masked drop of the code amounts to. -/
def firstOccurrences (seen : List (List Cell)) : List CanonicalRow → List CanonicalRow
  | [] => []
  | r :: rest =>
      if decide (r.fields ∈ seen) then firstOccurrences (r.fields :: seen) rest
      else r :: firstOccurrences (r.fields :: seen) rest

/-! ### The ingestion run (_ingest_series) -/

/-- The Python suffix test file.name[-len(ext):] == ext used to separate
input series from files of unexpected extension. -/
def pySuffixEq (name ext : List Char) : Bool :=
  if ext.length = 0 then name == ext
  else name.drop (name.length - ext.length) == ext

/-- Candidate input series of a run: the files of the input directory whose
name carries the configured extension; the other files are ignored. -/
def candidateFiles (ct : SeriesTypeConfiguration) (files : List SeriesFile) : List SeriesFile :=
  files.filter (fun f => pySuffixEq f.name.data ct.input_file_extension.data)

/-- Row produced by processing one file, when the file is valid. -/
def processedRow (conf : DataIngestionConfiguration) (ct : SeriesTypeConfiguration)
    (f : SeriesFile) : Option CanonicalRow :=
  match process_series conf ct f with
  | .valid row => some row
  | .malformed _ => none

/-- Multi core processing: the candidate list is split into order
preserving shards, each worker validates its shard in order and the
coordinator concatenates the returned batches in pool order, so the
accumulated batch is the in-order batch of all valid candidate rows; the
max_series limit plays no role here. -/
def multiCoreProcess (conf : DataIngestionConfiguration) (ct : SeriesTypeConfiguration)
    (files : List SeriesFile) : List CanonicalRow :=
  files.filterMap (processedRow conf ct)

/-- Single core processing loop of _ingest_series: validate the candidates
in order, append the valid rows to the accumulator, and break as soon as
the accumulated valid count reaches max_series when max_series is positive.
Returns the accumulated batch and the unprocessed candidates (which stay in
the input directory). -/
def singleCoreLoop (conf : DataIngestionConfiguration) (ct : SeriesTypeConfiguration)
    (max_series : Nat) : List SeriesFile → List CanonicalRow → List CanonicalRow × List SeriesFile
  | [], acc => (acc, [])
  | f :: rest, acc =>
      match process_series conf ct f with
      | .malformed _ => singleCoreLoop conf ct max_series rest acc
      | .valid row =>
          if 0 < max_series ∧ (acc ++ [row]).length = max_series then (acc ++ [row], rest)
          else singleCoreLoop conf ct max_series rest (acc ++ [row])

/-- State of the file system before or after a run: the listing of the
input directory, the parsed rows of the output store file, and whether the
final write of the store raises an OSError. -/
structure IngestState where
  files : List SeriesFile
  store : List CanonicalRow
  write_fails : Bool
deriving DecidableEq

/-- Observable outcome of one run: the returned ingested count, the counts
of the logged summary, the rows of the output store file after the run,
whether the store file was rewritten at all, the input directory after the
run, and whether the warning about max_series being ineffective in multi
core mode was emitted. -/
structure IngestResult where
  ingested : Nat
  valid : Nat
  malformed : Nat
  duplicated : Nat
  store : List CanonicalRow
  store_written : Bool
  files_after : List SeriesFile
  warned_max_series_multicore : Bool
deriving DecidableEq

/-- Input directory after a run: the processed candidates were deleted,
the files of unexpected extension and the unprocessed candidates remain. -/
def remainingFiles (ct : SeriesTypeConfiguration) (files leftover : List SeriesFile) :
    List SeriesFile :=
  files.filter (fun f =>
    !pySuffixEq f.name.data ct.input_file_extension.data || decide (f ∈ leftover))

/-- Configuration of the series type selected by the run. -/
def resolveCurrentType (conf : DataIngestionConfiguration) (series_type : String) :
    SeriesTypeConfiguration :=
  if series_type = "labeled" then conf.labeled else conf.unlabeled

/-- Body of _ingest_series once max_series is resolved: scan the input
directory, return the zero summary when no candidate is found, process the
candidates (multi core or single core), merge with the store, filter
duplicates unless the policy is save, and persist; a failing final write is
caught and resets the reported ingested count to 0 without touching the
already deleted input files.  The quarantine copies of malformed series and
the per file OSError skip are not modelled. -/
def ingest_run (conf : DataIngestionConfiguration) (series_type : String)
    (max_series : Nat) (explicitArg : Bool) (st : IngestState) : IngestResult :=
  let ct := resolveCurrentType conf series_type
  let warned := explicitArg && conf.multi_core_enable
  let input_series := candidateFiles ct st.files
  if input_series.length = 0 then
    { ingested := 0, valid := 0, malformed := 0, duplicated := 0,
      store := st.store, store_written := false, files_after := st.files,
      warned_max_series_multicore := warned }
  else
    let pr :=
      if conf.multi_core_enable then (multiCoreProcess conf ct input_series, ([] : List SeriesFile))
      else singleCoreLoop conf ct max_series input_series []
    let valid := pr.1.length
    let malformed := input_series.length - valid
    let files_after := remainingFiles ct st.files pr.2
    if pr.1.length = 0 then
      { ingested := 0, valid := valid, malformed := malformed, duplicated := 0,
        store := st.store, store_written := false, files_after := files_after,
        warned_max_series_multicore := warned }
    else
      let dedup :=
        if ct.duplicated_policy ≠ "save" then dedupStep st.store pr.1
        else (st.store ++ pr.1, 0)
      let ingested := pr.1.length - dedup.2
      if 0 < ingested then
        if st.write_fails then
          { ingested := 0, valid := valid, malformed := malformed, duplicated := dedup.2,
            store := st.store, store_written := false, files_after := files_after,
            warned_max_series_multicore := warned }
        else
          { ingested := ingested, valid := valid, malformed := malformed, duplicated := dedup.2,
            store := dedup.1, store_written := true, files_after := files_after,
            warned_max_series_multicore := warned }
      else
        { ingested := 0, valid := valid, malformed := malformed, duplicated := dedup.2,
          store := st.store, store_written := false, files_after := files_after,
          warned_max_series_multicore := warned }

/-- The service operation _ingest_series: resolve max_series (an explicit
argument overrides the configured default and must be a positive integer,
otherwise the run aborts with a critical log and returns 0; passing it with
multi core enabled additionally emits a warning) and run the ingestion. -/
def ingest_series (conf : DataIngestionConfiguration) (series_type : String)
    (max_series_arg : Option Int) (st : IngestState) : IngestResult :=
  match max_series_arg with
  | none => ingest_run conf series_type conf.max_series_per_run false st
  | some m =>
      if m ≤ 0 then
        { ingested := 0, valid := 0, malformed := 0, duplicated := 0,
          store := st.store, store_written := false, files_after := st.files,
          warned_max_series_multicore := false }
      else ingest_run conf series_type m.toNat true st

/-- Public interface start_ingest_labeled_series. -/
def start_ingest_labeled_series (conf : DataIngestionConfiguration)
    (max_series_arg : Option Int) (st : IngestState) : IngestResult :=
  ingest_series conf "labeled" max_series_arg st

/-- Public interface start_ingest_unlabeled_series. -/
def start_ingest_unlabeled_series (conf : DataIngestionConfiguration)
    (max_series_arg : Option Int) (st : IngestState) : IngestResult :=
  ingest_series conf "unlabeled" max_series_arg st

/-! ### Startup resource validation (_check_resource_valid) -/

/-- Join a list of column names with a separator character, the model of
separator.join(series_columns) used when an output file is created or
initialized; a correctly formatted output file starts with this line. -/
def intercalateChar (d : Char) : List (List Char) → List Char
  | [] => []
  | [x] => x
  | x :: y :: rest => x ++ d :: intercalateChar d (y :: rest)

/-- The expected column headers, from the service constructor:
timestamp, ANOMALOUS, then default_label concatenated with the running
sample index. -/
def seriesColumns (conf : DataIngestionConfiguration) : List (List Char) :=
  "timestamp".data :: "ANOMALOUS".data ::
    (List.range conf.sample_size).map
      (fun i => conf.default_label.data ++ (Nat.repr (conf.starting_index + i)).data)

/-- Removal of a trailing newline from the last column, as performed by
_check_resource_valid after splitting the first line: when the last
character of the last column is a newline it is dropped.  The code indexes
the last character of the last column, which raises an uncaught IndexError
when that column is empty; that path is left unmodelled (no change). -/
def stripTrailingNewlineCols (cols : List (List Char)) : List (List Char) :=
  if (cols.getLast?.getD []).getLast? = some '\n' then
    cols.dropLast ++ [(cols.getLast?.getD []).dropLast]
  else cols

/-- The header comparison of _check_resource_valid on a non empty output
file: the first line is split with the output separator of the LABELED
series configuration (whatever series type the file belongs to), a trailing
newline is stripped from the last column, and the columns are compared with
the expected headers. -/
def checkFileHeader (conf : DataIngestionConfiguration) (first_line : List Char) : Bool :=
  let cols := splitOnChar conf.labeled.output_series_separator first_line
  let cols := stripTrailingNewlineCols cols
  decide (cols = seriesColumns conf)

/-- Header validation of one non empty output file at construction: a
mismatch raises ValueError, which aborts the constructor. -/
def check_resource_valid_file (conf : DataIngestionConfiguration) (first_line : List Char) :
    Except String Unit :=
  if checkFileHeader conf first_line then .ok ()
  else .error "column headers mismatch"

/-! ### Concrete fixtures used by the witnesses and counterexamples -/

/-- A small series type configuration with the duplicate discarding
policy. -/
def demoType (sty : String) : SeriesTypeConfiguration :=
  { series_type := sty, input_file_extension := ".dat", input_series_separator := ','
    output_series_separator := ',', max_null_perc := 1, max_consec_null := 5
    null_filling_strategy := "zeroFill", duplicated_policy := "discard",
    malformed_policy := "drop" }

/-- A single core service configuration with sample_size 1. -/
def demoConf : DataIngestionConfiguration :=
  { sample_size := 1, default_label := "sample", starting_index := 0,
    max_series_per_run := 0, multi_core_enable := false, multi_core_limit := 0,
    labeled := demoType "labeled", unlabeled := demoType "unlabeled" }

/-- A multi core variant of the demo configuration. -/
def demoConfMulti : DataIngestionConfiguration :=
  { demoConf with multi_core_enable := true, multi_core_limit := 2 }

/-- The configuration of the scenario of the spec, sample_size 5. -/
def demoConfC3 : DataIngestionConfiguration :=
  { demoConf with sample_size := 5 }

/-- The input file of the scenario of the spec: name A.dat, content 1,2,3;
the name does not match a datetime format and the creation time is 0. -/
def fileC3 : SeriesFile :=
  { name := "A.dat", content := "1,2,3", name_matches_datetime := false,
    name_timestamp := 0, ctime := 0 }

/-- An input file of content 1,5 and creation time 10. -/
def fileA : SeriesFile :=
  { name := "a.dat", content := "1,5", name_matches_datetime := false,
    name_timestamp := 0, ctime := 10 }

/-- A second input file with the same content as fileA, creation time 20. -/
def fileB : SeriesFile :=
  { name := "b.dat", content := "1,5", name_matches_datetime := false,
    name_timestamp := 0, ctime := 20 }

/-- An empty input file whose name does not parse as a datetime. -/
def fileEmpty : SeriesFile :=
  { name := "x.dat", content := "", name_matches_datetime := false,
    name_timestamp := 0, ctime := 30 }

/-- A file of a foreign extension, ignored by the directory scan. -/
def fileForeign : SeriesFile :=
  { name := "readme.txt", content := "hello", name_matches_datetime := false,
    name_timestamp := 0, ctime := 40 }

/-- State with two bit identical fresh candidates and an empty store. -/
def demoStateFreshPair : IngestState :=
  { files := [fileA, fileB], store := [], write_fails := false }

/-- State with two bit identical fresh candidates whose row already sits in
the store (with a different timestamp, which is not compared). -/
def demoStatePreMatch : IngestState :=
  { files := [fileA, fileB], store := [⟨0, [some 1, some 5]⟩], write_fails := false }

/-- State with one valid candidate and a failing final store write. -/
def demoStateWriteFail : IngestState :=
  { files := [fileA], store := [], write_fails := true }

/-- State whose input directory holds no file of the expected extension. -/
def demoStateNoCandidates : IngestState :=
  { files := [fileForeign], store := [⟨0, [some 1, some 5]⟩], write_fails := false }

/-- The unlabeled series configuration with a diverging output separator. -/
def demoUnlabeledSemicolon : SeriesTypeConfiguration :=
  { demoType "unlabeled" with output_series_separator := ';' }

/-- A configuration whose labeled and unlabeled output separators differ. -/
def demoConfSeparators : DataIngestionConfiguration :=
  { demoConf with sample_size := 2, unlabeled := demoUnlabeledSemicolon }

/-- Rows used by the duplicate filtering witnesses. -/
def demoRowOther : CanonicalRow := ⟨0, [some 2, some 7]⟩

/-- A fresh row of fields ANOMALOUS 1, sample 5, timestamp 10. -/
def demoRowA : CanonicalRow := ⟨10, [some 1, some 5]⟩

/-- A fresh row with the fields of demoRowA and timestamp 20. -/
def demoRowB : CanonicalRow := ⟨20, [some 1, some 5]⟩

/-! ### Helper lemmas: null filling and width reconciliation -/

theorem getD_eq_some_iff {row : List Cell} {i : Nat} {v : ℚ} :
    row.getD i none = some v ↔ row.get? i = some (some v) := by
  rw [List.getD_eq_get?]
  cases h : row.get? i with
  | none => simp
  | some c => simp

theorem cell_getD_lt {row : List Cell} {i : Nat} {v : ℚ}
    (h : row.getD i none = some v) : i < row.length := by
  by_contra hn
  push_neg at hn
  rw [getD_eq_some_iff, List.get?_eq_none.2 hn] at h
  exact Option.noConfusion h

theorem getD_range_map (f : Nat → Cell) {n i : Nat} (h : i < n) :
    ((List.range n).map f).getD i none = f i := by
  rw [List.getD_eq_get?, List.get?_map, List.get?_range h]
  rfl

theorem zeroFill_length (row : List Cell) : (zeroFill row).length = row.length := by
  simp [zeroFill]

theorem ffillRow_length (row : List Cell) : (ffillRow row).length = row.length := by
  simp [ffillRow]

theorem bfillRow_length (row : List Cell) : (bfillRow row).length = row.length := by
  simp [bfillRow]

theorem linearFill_length (row : List Cell) : (linearFill row).length = row.length := by
  simp [linearFill]

theorem applyNullFilling_length (s : String) (row : List Cell) :
    (applyNullFilling s row).length = row.length := by
  unfold applyNullFilling
  split
  · exact linearFill_length row
  split
  · exact zeroFill_length row
  split
  · exact ffillRow_length row
  · exact bfillRow_length row

theorem zeroFill_getD_some {row : List Cell} {i : Nat} {v : ℚ}
    (h : row.getD i none = some v) : (zeroFill row).getD i none = some v := by
  rw [getD_eq_some_iff] at h ⊢
  rw [zeroFill, List.get?_map, h]
  rfl

theorem ffillRow_getD_some {row : List Cell} {i : Nat} {v : ℚ}
    (h : row.getD i none = some v) : (ffillRow row).getD i none = some v := by
  have hi := cell_getD_lt h
  rw [ffillRow, getD_range_map _ hi, h]

theorem bfillRow_getD_some {row : List Cell} {i : Nat} {v : ℚ}
    (h : row.getD i none = some v) : (bfillRow row).getD i none = some v := by
  have hi := cell_getD_lt h
  rw [bfillRow, getD_range_map _ hi, h]

theorem linearFill_getD_some {row : List Cell} {i : Nat} {v : ℚ}
    (h : row.getD i none = some v) : (linearFill row).getD i none = some v := by
  have hi := cell_getD_lt h
  rw [linearFill, getD_range_map _ hi, h]

theorem applyNullFilling_getD_some {s : String} {row : List Cell} {i : Nat} {v : ℚ}
    (h : row.getD i none = some v) : (applyNullFilling s row).getD i none = some v := by
  unfold applyNullFilling
  split
  · exact linearFill_getD_some h
  split
  · exact zeroFill_getD_some h
  split
  · exact ffillRow_getD_some h
  · exact bfillRow_getD_some h

theorem reconcileWidth_length (conf : DataIngestionConfiguration) (row : List Cell) :
    (reconcileWidth conf row).length = conf.sample_size + 1 := by
  unfold reconcileWidth samples_delta
  split
  · rename_i h
    rw [List.length_take]
    omega
  split
  · rename_i h h2
    rw [List.length_append, List.length_replicate]
    omega
  · rename_i h h2
    omega

theorem reconcileWidth_getD_zero {conf : DataIngestionConfiguration} {row : List Cell} {v : ℚ}
    (h : row.getD 0 none = some v) : (reconcileWidth conf row).getD 0 none = some v := by
  have hi := cell_getD_lt h
  unfold reconcileWidth
  split
  · rw [getD_eq_some_iff] at h ⊢
    rw [List.get?_take (by omega : 0 < conf.sample_size + 1)]
    exact h
  split
  · rw [getD_eq_some_iff] at h ⊢
    rw [List.get?_append hi]
    exact h
  · exact h

/-! ### Helper lemmas: duplicate filtering -/

theorem dupFlagsAux_length (seen : List (List Cell)) (rows : List CanonicalRow) :
    (dupFlagsAux seen rows).length = rows.length := by
  induction rows generalizing seen with
  | nil => rfl
  | cons r rest ih => simp [dupFlagsAux, ih]

theorem dupFlagsAux_append (seen : List (List Cell)) (xs ys : List CanonicalRow) :
    dupFlagsAux seen (xs ++ ys)
      = dupFlagsAux seen xs ++ dupFlagsAux ((xs.map CanonicalRow.fields).reverse ++ seen) ys := by
  induction xs generalizing seen with
  | nil => simp [dupFlagsAux]
  | cons x xs ih =>
      simp only [List.cons_append, dupFlagsAux, List.append_eq]
      rw [ih (x.fields :: seen)]
      simp [List.append_assoc]

theorem resetLeading_append (m1 m2 : List Bool) :
    resetLeading m1.length (m1 ++ m2) = List.replicate m1.length false ++ m2 := by
  induction m1 with
  | nil => cases m2 <;> rfl
  | cons b m1 ih => simp [resetLeading, ih, List.replicate_succ]

theorem effectiveMask_eq (pre new : List CanonicalRow) :
    effectiveMask pre new
      = List.replicate pre.length false
          ++ dupFlagsAux ((pre.map CanonicalRow.fields).reverse) new := by
  unfold effectiveMask duplicatedMask
  rw [dupFlagsAux_append, List.append_nil,
    show pre.length = (dupFlagsAux [] pre).length from (dupFlagsAux_length [] pre).symm,
    resetLeading_append, dupFlagsAux_length]

theorem dropMasked_replicate (pre new : List CanonicalRow) (mask : List Bool) :
    dropMasked (pre ++ new) (List.replicate pre.length false ++ mask)
      = pre ++ dropMasked new mask := by
  induction pre with
  | nil => simp
  | cons r pre ih => simp [List.replicate_succ, dropMasked, ih]

theorem dropMasked_dupFlags (seen : List (List Cell)) (rows : List CanonicalRow) :
    dropMasked rows (dupFlagsAux seen rows) = firstOccurrences seen rows := by
  induction rows generalizing seen with
  | nil => rfl
  | cons r rest ih =>
      by_cases h : r.fields ∈ seen <;>
        simp [dupFlagsAux, dropMasked, firstOccurrences, h, ih]

theorem firstOccurrences_eq_self (seen : List (List Cell)) (rows : List CanonicalRow)
    (h : (dupFlagsAux seen rows).count true = 0) :
    firstOccurrences seen rows = rows := by
  induction rows generalizing seen with
  | nil => rfl
  | cons r rest ih =>
      by_cases hm : r.fields ∈ seen
      · exfalso
        simp [dupFlagsAux, List.count_cons, hm] at h
      · simp only [dupFlagsAux, List.count_cons, hm] at h
        have hrest : (dupFlagsAux (r.fields :: seen) rest).count true = 0 := by
          omega
        simp [firstOccurrences, hm, ih _ hrest]

theorem dedupResultRows_eq (pre new : List CanonicalRow) :
    dedupResultRows pre new
      = pre ++ firstOccurrences ((pre.map CanonicalRow.fields).reverse) new := by
  unfold dedupResultRows dedupStep
  simp only [effectiveMask_eq]
  split
  · rw [dropMasked_replicate, dropMasked_dupFlags]
  · rename_i h
    rw [List.count_append] at h
    have hflags : (dupFlagsAux ((pre.map CanonicalRow.fields).reverse) new).count true = 0 := by
      have hrep : (List.replicate pre.length false).count true = 0 := by
        simp [List.count_replicate]
      omega
    rw [firstOccurrences_eq_self _ _ hflags]

theorem getD_replicate_false (k j : Nat) :
    (List.replicate k false).getD j false = false := by
  induction k generalizing j with
  | zero => cases j <;> rfl
  | succ k ih =>
      cases j with
      | zero => rfl
      | succ j => exact ih j

theorem dupFlagsAux_get? (seen : List (List Cell)) (rows : List CanonicalRow) (i : Nat)
    (h : i < rows.length) :
    (dupFlagsAux seen rows).get? i
      = some (decide ((rows.getD i ⟨0, []⟩).fields
          ∈ (rows.take i).map CanonicalRow.fields ++ seen)) := by
  induction rows generalizing seen i with
  | nil => simp at h
  | cons r rest ih =>
      cases i with
      | zero => simp [dupFlagsAux]
      | succ i =>
          simp only [dupFlagsAux, List.get?_cons_succ, List.getD_cons_succ,
            List.take_succ_cons, List.map_cons, List.cons_append]
          rw [ih (r.fields :: seen) i (by simpa using h)]
          congr 1
          rw [decide_eq_decide]
          simp only [List.mem_append, List.mem_cons]
          tauto

theorem effectiveMask_getD_pre (pre new : List CanonicalRow) (j : Nat)
    (hj : j < pre.length) :
    (effectiveMask pre new).getD j false = false := by
  rw [effectiveMask_eq, List.getD_eq_get?,
    List.get?_append (by simpa using hj)]
  rw [← List.getD_eq_get?]
  exact getD_replicate_false _ _

theorem effectiveMask_getD_new (pre new : List CanonicalRow) (i : Nat)
    (h : i < new.length) :
    (effectiveMask pre new).getD (pre.length + i) false
      = decide ((new.getD i ⟨0, []⟩).fields
          ∈ (new.take i).map CanonicalRow.fields
            ++ (pre.map CanonicalRow.fields).reverse) := by
  rw [effectiveMask_eq, List.getD_eq_get?,
    List.get?_append_right (by simp)]
  simp only [List.length_replicate, Nat.add_sub_cancel_left]
  rw [dupFlagsAux_get? _ _ _ h]
  rfl

theorem firstOccurrences_filter_count (seen : List (List Cell)) (rows : List CanonicalRow)
    (v : List Cell) :
    ((firstOccurrences seen rows).filter (fun r => decide (r.fields = v))).length
      = if v ∈ seen then 0
        else if v ∈ rows.map CanonicalRow.fields then 1 else 0 := by
  induction rows generalizing seen with
  | nil =>
      by_cases hv : v ∈ seen <;> simp [firstOccurrences, hv]
  | cons r rest ih =>
      by_cases hm : r.fields ∈ seen
      · rw [show firstOccurrences seen (r :: rest)
              = firstOccurrences (r.fields :: seen) rest by
            simp [firstOccurrences, hm]]
        rw [ih]
        by_cases hvs : v ∈ seen
        · simp [hvs, List.mem_cons]
        · have hne : v ≠ r.fields := fun he => hvs (he ▸ hm)
          simp [hvs, List.mem_cons, hne]
      · rw [show firstOccurrences seen (r :: rest)
              = r :: firstOccurrences (r.fields :: seen) rest by
            simp [firstOccurrences, hm]]
        by_cases hv : r.fields = v
        · subst hv
          rw [List.filter_cons_of_pos (by simp), List.length_cons, ih]
          simp [hm, List.mem_cons]
        · have hne : v ≠ r.fields := fun he => hv he.symm
          rw [List.filter_cons_of_neg (by simp [hv]), ih]
          by_cases hvs : v ∈ seen
          · simp [hvs, List.mem_cons, hne]
          · simp [hvs, List.mem_cons, hne]

/-! ### Helper lemmas: the single core processing loop -/

theorem singleCoreLoop_length (conf : DataIngestionConfiguration)
    (ct : SeriesTypeConfiguration) {m : Nat} (hm : 0 < m) :
    ∀ (files : List SeriesFile) (acc : List CanonicalRow), acc.length < m →
      ((singleCoreLoop conf ct m files acc).1).length
        = min m (acc.length + (multiCoreProcess conf ct files).length) := by
  intro files
  induction files with
  | nil =>
      intro acc hacc
      simp only [singleCoreLoop, multiCoreProcess, List.filterMap_nil, List.length_nil]
      omega
  | cons f rest ih =>
      intro acc hacc
      cases hp : process_series conf ct f with
      | malformed c =>
          rw [show singleCoreLoop conf ct m (f :: rest) acc
                = singleCoreLoop conf ct m rest acc by
              simp [singleCoreLoop, hp]]
          rw [ih acc hacc]
          simp [multiCoreProcess, processedRow, hp]
      | valid row =>
          rw [show singleCoreLoop conf ct m (f :: rest) acc
                = if 0 < m ∧ (acc ++ [row]).length = m then (acc ++ [row], rest)
                  else singleCoreLoop conf ct m rest (acc ++ [row]) by
              simp [singleCoreLoop, hp]]
          have hmc : (multiCoreProcess conf ct (f :: rest)).length
              = (multiCoreProcess conf ct rest).length + 1 := by
            simp [multiCoreProcess, processedRow, hp]
          by_cases hfull : (acc ++ [row]).length = m
          · rw [if_pos ⟨hm, hfull⟩, hmc]
            simp only [List.length_append, List.length_singleton] at hfull ⊢
            omega
          · rw [if_neg (fun hc => hfull hc.2)]
            have hlt : (acc ++ [row]).length < m := by
              simp only [List.length_append, List.length_singleton] at hfull ⊢
              omega
            rw [ih _ hlt, hmc]
            simp only [List.length_append, List.length_singleton]
            omega

/-! ### Claims C5, C3 and C6: the series validator -/

/-- C5: an input file of size zero is classified as malformed with cause
empty series by the empty file rule, before and regardless of whether its
name parses against the configured datetime format; the datetime fallback
is never reached for such a file. -/
theorem claim_C5_empty_file_precedence (conf : DataIngestionConfiguration)
    (ct : SeriesTypeConfiguration) (file : SeriesFile)
    (h : file.content.length = 0) :
    process_series conf ct file = .malformed "empty series" := by
  unfold process_series
  rw [if_pos h]

theorem claim_C5_witness :
    fileEmpty.content.length = 0
  ∧ process_series demoConf (demoType "labeled") fileEmpty = .malformed "empty series" :=
  ⟨by decide, claim_C5_empty_file_precedence demoConf (demoType "labeled") fileEmpty (by decide)⟩

/-- C3 counterexample: for the labeled file A.dat of content 1,2,3 with
sample_size 5 and zero filling, the parsed row has width 3, so the width
delta is 3 and not 2, and the emitted canonical row is
[timestamp, 1, 2, 3, 0, 0, 0] and not [timestamp, 1, 2, 3, 0, 0]. -/
theorem claim_C3_counterexample :
    samples_delta demoConfC3 3 = 3
  ∧ samples_delta demoConfC3 3 ≠ 2
  ∧ processResultFields (process_series demoConfC3 demoConfC3.labeled fileC3)
      = [some 1, some 2, some 3, some 0, some 0, some 0]
  ∧ processResultFields (process_series demoConfC3 demoConfC3.labeled fileC3)
      ≠ [some 1, some 2, some 3, some 0, some 0] := by decide

/-- C3 amended: for the labeled file A.dat of content 1,2,3 with
sample_size 5, input separator comma and zero filling, the validator parses
a row of width 3, computes a width delta of 3, appends three NaN trailing
fields which zero filling turns into zeros, and emits the canonical row
[timestamp, 1, 2, 3, 0, 0, 0]. -/
theorem claim_C3_amended :
    samples_delta demoConfC3 3 = 3
  ∧ reconcileWidth demoConfC3 [some 1, some 2, some 3]
      = [some 1, some 2, some 3, none, none, none]
  ∧ process_series demoConfC3 demoConfC3.labeled fileC3
      = .valid ⟨0, [some 1, some 2, some 3, some 0, some 0, some 0]⟩ := by decide

/-- C6: every row emitted as valid has width sample_size + 2 (timestamp,
ANOMALOUS and sample_size samples), whatever the width of the original
file; its ANOMALOUS field is 0 or 1 when the series type is labeled and
exactly -1 when it is unlabeled. -/
theorem claim_C6_valid_row_shape (conf : DataIngestionConfiguration)
    (ct : SeriesTypeConfiguration) (file : SeriesFile) (row : CanonicalRow)
    (h : process_series conf ct file = .valid row) :
    row.width = conf.sample_size + 2
  ∧ (ct.series_type = "labeled" →
      row.fields.getD 0 none = some 0 ∨ row.fields.getD 0 none = some 1)
  ∧ (ct.series_type = "unlabeled" → row.fields.getD 0 none = some (-1)) := by
  simp only [process_series] at h
  split at h
  · exact absurd h (by simp)
  split at h
  · exact absurd h (by simp)
  split at h
  · exact absurd h (by simp)
  split at h
  · exact absurd h (by simp)
  rename_i rows heq hrows hcheck
  by_cases hunl : ct.series_type = "unlabeled"
  · rw [if_pos hunl] at h
    split at h
    · exact absurd h (by simp)
    split at h
    · exact absurd h (by simp)
    rw [ProcessResult.valid.injEq] at h
    subst h
    refine ⟨?_, ?_, ?_⟩
    · unfold CanonicalRow.width
      rw [applyNullFilling_length, reconcileWidth_length]
      omega
    · intro hlab
      rw [hlab] at hunl
      exact absurd hunl (by decide)
    · intro _
      have h0 : ((some (-1) : Cell) :: rows.headD []).getD 0 none = some (-1) := rfl
      exact applyNullFilling_getD_some (reconcileWidth_getD_zero h0)
  · rw [if_neg hunl] at h
    split at h
    · exact absurd h (by simp)
    split at h
    · exact absurd h (by simp)
    rw [ProcessResult.valid.injEq] at h
    subst h
    refine ⟨?_, ?_, ?_⟩
    · unfold CanonicalRow.width
      rw [applyNullFilling_length, reconcileWidth_length]
      omega
    · intro hlab
      have h01 : (rows.headD []).getD 0 none = some 0
          ∨ (rows.headD []).getD 0 none = some 1 := by
        by_cases h0 : (rows.headD []).getD 0 none = some 0
        · exact Or.inl h0
        · by_cases h1 : (rows.headD []).getD 0 none = some 1
          · exact Or.inr h1
          · exact absurd ⟨hlab, h0, h1⟩ hcheck
      rcases h01 with h0 | h0
      · exact Or.inl (applyNullFilling_getD_some (reconcileWidth_getD_zero h0))
      · exact Or.inr (applyNullFilling_getD_some (reconcileWidth_getD_zero h0))
    · intro hu
      exact absurd hu hunl

theorem claim_C6_witness :
    process_series demoConf (demoType "labeled") fileA = .valid demoRowA
  ∧ (demoRowA.width = demoConf.sample_size + 2
      ∧ ((demoType "labeled").series_type = "labeled" →
          demoRowA.fields.getD 0 none = some 0 ∨ demoRowA.fields.getD 0 none = some 1)
      ∧ ((demoType "labeled").series_type = "unlabeled" →
          demoRowA.fields.getD 0 none = some (-1))) :=
  ⟨by decide,
    claim_C6_valid_row_shape demoConf (demoType "labeled") fileA demoRowA (by decide)⟩

/-! ### Claim C9: startup header validation -/

theorem splitOnChar_ne_nil (c : Char) (s : List Char) : splitOnChar c s ≠ [] := by
  cases s with
  | nil => simp [splitOnChar]
  | cons a rest => by_cases h : a = c <;> simp [splitOnChar, h]

theorem intercalateChar_splitOnChar (c : Char) (s : List Char) :
    intercalateChar c (splitOnChar c s) = s := by
  induction s with
  | nil => rfl
  | cons a rest ih =>
      by_cases hac : a = c
      · subst hac
        rw [show splitOnChar a (a :: rest) = [] :: splitOnChar a rest by
          simp [splitOnChar]]
        cases hr : splitOnChar a rest with
        | nil => exact absurd hr (splitOnChar_ne_nil a rest)
        | cons h t =>
            simp only [intercalateChar, List.nil_append]
            rw [← hr, ih]
      · rw [show splitOnChar c (a :: rest)
            = (a :: (splitOnChar c rest).headD []) :: (splitOnChar c rest).tail by
          simp [splitOnChar, hac]]
        cases hr : splitOnChar c rest with
        | nil => exact absurd hr (splitOnChar_ne_nil c rest)
        | cons h t =>
            rw [hr] at ih
            simp only [List.headD_cons, List.tail_cons]
            cases t with
            | nil =>
                simp only [intercalateChar] at ih ⊢
                rw [ih]
            | cons t1 ts =>
                simp only [intercalateChar] at ih ⊢
                rw [← ih]
                simp

theorem stripTrailingNewlineCols_length (l : List (List Char)) :
    (stripTrailingNewlineCols l).length = l.length := by
  unfold stripTrailingNewlineCols
  split
  · rename_i h
    have hl : l ≠ [] := by
      intro he
      subst he
      simp at h
    rw [List.length_append, List.length_dropLast, List.length_singleton]
    have := List.length_pos.2 hl
    omega
  · rfl

theorem stripTrailingNewlineCols_head (a b : List Char) (t : List (List Char)) :
    (stripTrailingNewlineCols (a :: b :: t)).head? = some a := by
  unfold stripTrailingNewlineCols
  split
  · simp [List.dropLast_cons₂]
  · rfl

theorem intercalateChar_sep_inj {c d : Char} (x : List Char) (xs ys : List (List Char))
    (hxs : xs ≠ []) (hys : ys ≠ [])
    (h : intercalateChar c (x :: xs) = intercalateChar d (x :: ys)) : c = d := by
  cases xs with
  | nil => exact absurd rfl hxs
  | cons x1 t1 =>
      cases ys with
      | nil => exact absurd rfl hys
      | cons y1 t2 =>
          rw [intercalateChar, intercalateChar] at h
          have h2 := List.append_cancel_left h
          have h3 := congrArg List.head? h2
          simpa using h3

/-- Core of claim C9: splitting with a separator c a first line that joins
at least two columns with a DIFFERENT separator d never reproduces the
column list, whatever the column contents. -/
theorem headerSplit_fails_on_foreign_sep {c d : Char} (hsep : c ≠ d)
    (x y : List Char) (t : List (List Char)) :
    stripTrailingNewlineCols (splitOnChar c (intercalateChar d (x :: y :: t)))
      ≠ x :: y :: t := by
  intro heq
  have hL := intercalateChar_splitOnChar c (intercalateChar d (x :: y :: t))
  have hlen : (splitOnChar c (intercalateChar d (x :: y :: t))).length = t.length + 2 := by
    rw [← stripTrailingNewlineCols_length, heq]
    simp
  obtain ⟨x1, y1, t1, hS⟩ : ∃ x1 y1 t1,
      splitOnChar c (intercalateChar d (x :: y :: t)) = x1 :: y1 :: t1 := by
    rcases h0 : splitOnChar c (intercalateChar d (x :: y :: t)) with _ | ⟨x1, _ | ⟨y1, t1⟩⟩
    · exfalso
      rw [h0] at hlen
      simp only [List.length_nil] at hlen
      omega
    · exfalso
      rw [h0] at hlen
      simp only [List.length_singleton] at hlen
      omega
    · exact ⟨x1, y1, t1, rfl⟩
  have hx : x1 = x := by
    have h1 := stripTrailingNewlineCols_head x1 y1 t1
    rw [← hS, heq] at h1
    simp only [List.head?_cons, Option.some.injEq] at h1
    exact h1.symm
  subst hx
  rw [hS] at hL
  exact hsep (intercalateChar_sep_inj x1 (y1 :: t1) (y :: t)
    (List.cons_ne_nil y1 t1) (List.cons_ne_nil y t) hL)

theorem seriesColumns_length (conf : DataIngestionConfiguration) :
    (seriesColumns conf).length = conf.sample_size + 2 := by
  simp [seriesColumns]

/-- C9: the first line of every non empty output file is split with the
output separator of the LABELED series when compared against the expected
column headers, whatever series type the file belongs to; hence when the
unlabeled output separator differs from the labeled one, a correctly
formatted unlabeled output file, whose first line joins the expected
columns with the unlabeled separator (exactly what the service itself
writes when creating the file), fails the header check and raises
ValueError at construction. -/
theorem claim_C9_header_check_uses_labeled_separator (conf : DataIngestionConfiguration)
    (hsep : conf.labeled.output_series_separator ≠ conf.unlabeled.output_series_separator) :
    check_resource_valid_file conf
        (intercalateChar conf.unlabeled.output_series_separator (seriesColumns conf))
      = .error "column headers mismatch" := by
  have hSC : seriesColumns conf
      = "timestamp".data :: "ANOMALOUS".data ::
          (List.range conf.sample_size).map
            (fun i => conf.default_label.data ++ (Nat.repr (conf.starting_index + i)).data) :=
    rfl
  have hne := headerSplit_fails_on_foreign_sep hsep "timestamp".data "ANOMALOUS".data
    ((List.range conf.sample_size).map
      (fun i => conf.default_label.data ++ (Nat.repr (conf.starting_index + i)).data))
  rw [← hSC] at hne
  simp only [check_resource_valid_file, checkFileHeader, decide_eq_false hne]
  rfl

theorem claim_C9_witness :
    demoConfSeparators.labeled.output_series_separator
        ≠ demoConfSeparators.unlabeled.output_series_separator
  ∧ check_resource_valid_file demoConfSeparators
        (intercalateChar demoConfSeparators.unlabeled.output_series_separator
          (seriesColumns demoConfSeparators))
      = .error "column headers mismatch" :=
  ⟨by decide,
    claim_C9_header_check_uses_labeled_separator demoConfSeparators (by decide)⟩

/-! ### Claims C1 and C2: the duplicate law -/

/-- C1 counterexample: a run over two distinct input files of identical
content with an EMPTY pre existing store.  No fresh row matches any row of
the pre existing store, yet one of the two freshly added rows is flagged as
a duplicate of the other and dropped: the duplicated count is 1 and only
one row survives into the store, against the claim that freshly added rows
are never flagged against each other and both survive. -/
theorem claim_C1_counterexample :
    demoStateFreshPair.store = []
  ∧ (ingest_series demoConf "labeled" none demoStateFreshPair).valid = 2
  ∧ (ingest_series demoConf "labeled" none demoStateFreshPair).duplicated = 1
  ∧ (ingest_series demoConf "labeled" none demoStateFreshPair).store = [demoRowA] := by
  decide

/-- C1 amended: the duplicate mask applied by the run flags a newly
appended row exactly when its fields (all columns except the timestamp)
match a row of the pre existing store OR an EARLIER newly appended row of
the same run, and never flags a pre existing row.  So two bit identical
rows freshly added in the same run are flagged against each other: the
later one is dropped. -/
theorem claim_C1_amended (pre new : List CanonicalRow) (i : Nat) (h : i < new.length) :
    ((effectiveMask pre new).getD (pre.length + i) false = true ↔
      ((new.getD i ⟨0, []⟩).fields ∈ pre.map CanonicalRow.fields
        ∨ (new.getD i ⟨0, []⟩).fields ∈ (new.take i).map CanonicalRow.fields))
  ∧ (∀ j, j < pre.length → (effectiveMask pre new).getD j false = false) := by
  constructor
  · rw [effectiveMask_getD_new pre new i h]
    simp only [decide_eq_true_eq, List.mem_append, List.mem_reverse]
    tauto
  · intro j hj
    exact effectiveMask_getD_pre pre new j hj

theorem claim_C1_witness :
    (((effectiveMask [demoRowOther] [demoRowA, demoRowB]).getD
        ([demoRowOther].length + 1) false = true) ↔
      (([demoRowA, demoRowB].getD 1 ⟨0, []⟩).fields
          ∈ [demoRowOther].map CanonicalRow.fields
        ∨ ([demoRowA, demoRowB].getD 1 ⟨0, []⟩).fields
          ∈ ([demoRowA, demoRowB].take 1).map CanonicalRow.fields))
  ∧ (∀ j, j < [demoRowOther].length →
      (effectiveMask [demoRowOther] [demoRowA, demoRowB]).getD j false = false) :=
  claim_C1_amended [demoRowOther] [demoRowA, demoRowB] 1 (by decide)

/-- C2 counterexample: a run over two distinct input files producing bit
identical valid rows whose fields already sit in the pre existing store.
Both fresh rows are flagged against the pre existing row and dropped, so
ZERO of the two rows survives into the persisted store (which is left
unchanged), against the claim that exactly one of them survives. -/
theorem claim_C2_counterexample :
    (ingest_series demoConf "labeled" none demoStatePreMatch).valid = 2
  ∧ (ingest_series demoConf "labeled" none demoStatePreMatch).duplicated = 2
  ∧ (ingest_series demoConf "labeled" none demoStatePreMatch).ingested = 0
  ∧ (ingest_series demoConf "labeled" none demoStatePreMatch).store
      = [⟨0, [some 1, some 5]⟩] := by
  decide

/-- C2 amended: when a run appends exactly two rows of identical fields
(the timestamp column excluded) and those fields match NO row of the pre
existing store, exactly one of the two survives duplicate filtering; and
whatever the batch, the pre existing rows all survive in place.  When the
common fields do match a pre existing row, both fresh copies are dropped
(see the counterexample). -/
theorem claim_C2_amended (pre new : List CanonicalRow) (v : List Cell)
    (h2 : (new.filter (fun r => decide (r.fields = v))).length = 2)
    (hpre : v ∉ pre.map CanonicalRow.fields) :
    ((dedupResultRows pre new).filter (fun r => decide (r.fields = v))).length = 1
  ∧ (dedupResultRows pre new).take pre.length = pre := by
  have hmem : v ∈ new.map CanonicalRow.fields := by
    have hne : new.filter (fun r => decide (r.fields = v)) ≠ [] := by
      intro he
      rw [he] at h2
      simp at h2
    obtain ⟨r, hr⟩ := List.exists_mem_of_ne_nil _ hne
    have hrf := List.mem_filter.1 hr
    exact List.mem_map.2 ⟨r, hrf.1, by simpa using hrf.2⟩
  constructor
  · rw [dedupResultRows_eq, List.filter_append, List.length_append]
    have hp : (pre.filter (fun r => decide (r.fields = v))).length = 0 := by
      rw [List.length_eq_zero, List.filter_eq_nil]
      intro r hrp
      simp only [decide_eq_true_eq]
      intro he
      exact hpre (List.mem_map.2 ⟨r, hrp, he⟩)
    have hpre' : v ∉ (pre.map CanonicalRow.fields).reverse := by
      simpa [List.mem_reverse] using hpre
    rw [hp, firstOccurrences_filter_count, if_neg hpre', if_pos hmem]
  · rw [dedupResultRows_eq, List.take_left]

theorem claim_C2_witness :
    ((dedupResultRows [demoRowOther] [demoRowA, demoRowB]).filter
        (fun r => decide (r.fields = [some 1, some 5]))).length = 1
  ∧ (dedupResultRows [demoRowOther] [demoRowA, demoRowB]).take [demoRowOther].length
      = [demoRowOther] :=
  claim_C2_amended [demoRowOther] [demoRowA, demoRowB] [some 1, some 5]
    (by decide) (by decide)

/-! ### Claim C4: the max_series limit -/

theorem ingest_run_valid (conf : DataIngestionConfiguration) (stype : String)
    (ms : Nat) (ex : Bool) (st : IngestState) :
    (ingest_run conf stype ms ex st).valid
      = (if conf.multi_core_enable
          then (multiCoreProcess conf (resolveCurrentType conf stype)
              (candidateFiles (resolveCurrentType conf stype) st.files),
            ([] : List SeriesFile))
          else singleCoreLoop conf (resolveCurrentType conf stype) ms
              (candidateFiles (resolveCurrentType conf stype) st.files) []).1.length := by
  simp only [ingest_run]
  split
  · rename_i hempty
    rw [List.length_eq_zero.1 hempty]
    split
    · simp [multiCoreProcess]
    · simp [singleCoreLoop]
  · repeat' split
    all_goals rfl

theorem ingest_run_warned (conf : DataIngestionConfiguration) (stype : String)
    (ms : Nat) (ex : Bool) (st : IngestState) :
    (ingest_run conf stype ms ex st).warned_max_series_multicore
      = (ex && conf.multi_core_enable) := by
  simp only [ingest_run]
  repeat' split
  all_goals rfl

/-- C4: an explicit positive max_series argument is honored only in single
core mode, where candidate processing stops as soon as max_series valid
rows are accumulated, so the accumulated valid count is the minimum of
max_series and the total valid count of the candidate list; in multi core
mode the argument has no limiting effect (the batch is the full in order
valid batch of all discovered candidates) and the run warns that the
argument is ignored rather than staying silent. -/
theorem claim_C4_max_series_effect (conf : DataIngestionConfiguration)
    (series_type : String) (st : IngestState) (m : Int) (hm : 0 < m) :
    (conf.multi_core_enable = false →
      (ingest_series conf series_type (some m) st).valid
        = min m.toNat
            (multiCoreProcess conf (resolveCurrentType conf series_type)
              (candidateFiles (resolveCurrentType conf series_type) st.files)).length)
  ∧ (conf.multi_core_enable = true →
      (ingest_series conf series_type (some m) st).valid
        = (multiCoreProcess conf (resolveCurrentType conf series_type)
            (candidateFiles (resolveCurrentType conf series_type) st.files)).length
      ∧ (ingest_series conf series_type (some m) st).warned_max_series_multicore
          = true) := by
  have hns : ¬m ≤ 0 := by omega
  constructor
  · intro hsc
    simp only [ingest_series]
    rw [if_neg hns, ingest_run_valid, hsc]
    have hmpos : 0 < m.toNat := by omega
    rw [if_neg (by simp)]
    rw [singleCoreLoop_length conf (resolveCurrentType conf series_type) hmpos
      (candidateFiles (resolveCurrentType conf series_type) st.files) []
      (by simpa using hmpos)]
    simp
  · intro hmc
    constructor
    · simp only [ingest_series]
      rw [if_neg hns, ingest_run_valid, hmc]
      simp
    · simp only [ingest_series]
      rw [if_neg hns, ingest_run_warned, hmc]
      simp

theorem claim_C4_witness :
    (demoConf.multi_core_enable = false →
      (ingest_series demoConf "labeled" (some 1) demoStateFreshPair).valid
        = min (Int.toNat 1)
            (multiCoreProcess demoConf (resolveCurrentType demoConf "labeled")
              (candidateFiles (resolveCurrentType demoConf "labeled")
                demoStateFreshPair.files)).length)
  ∧ (demoConf.multi_core_enable = true →
      (ingest_series demoConf "labeled" (some 1) demoStateFreshPair).valid
        = (multiCoreProcess demoConf (resolveCurrentType demoConf "labeled")
            (candidateFiles (resolveCurrentType demoConf "labeled")
              demoStateFreshPair.files)).length
      ∧ (ingest_series demoConf "labeled" (some 1)
            demoStateFreshPair).warned_max_series_multicore = true) :=
  claim_C4_max_series_effect demoConf "labeled" demoStateFreshPair 1 (by decide)

/-! ### Claim C7: persistence failure -/

theorem ingest_run_write_fails (conf : DataIngestionConfiguration) (stype : String)
    (ms : Nat) (ex : Bool) (st : IngestState) (h : st.write_fails = true) :
    (ingest_run conf stype ms ex st).ingested = 0
  ∧ (ingest_run conf stype ms ex st).store = st.store
  ∧ (ingest_run conf stype ms ex st).store_written = false := by
  simp only [ingest_run, h]
  repeat' split
  all_goals try exact ⟨rfl, rfl, rfl⟩
  all_goals rename_i hc
  all_goals exact absurd trivial hc

theorem ingest_run_files_after_flag (conf : DataIngestionConfiguration) (stype : String)
    (ms : Nat) (ex : Bool) (st : IngestState) :
    (ingest_run conf stype ms ex st).files_after
      = (ingest_run conf stype ms ex { st with write_fails := false }).files_after := by
  simp only [ingest_run]
  repeat' split
  all_goals rfl

/-- C7: when the final write of the merged store raises an OSError, the run
catches it and reports an ingested count of 0 instead of propagating the
exception; the store file keeps its previous rows and is not rewritten; and
the input directory ends up exactly as in a run whose write succeeds: the
already deleted (or quarantined) input files are not restored. -/
theorem claim_C7_persistence_failure (conf : DataIngestionConfiguration)
    (series_type : String) (arg : Option Int) (st : IngestState)
    (h : st.write_fails = true) :
    (ingest_series conf series_type arg st).ingested = 0
  ∧ (ingest_series conf series_type arg st).store = st.store
  ∧ (ingest_series conf series_type arg st).store_written = false
  ∧ (ingest_series conf series_type arg st).files_after
      = (ingest_series conf series_type arg
          { st with write_fails := false }).files_after := by
  cases arg with
  | none =>
      simp only [ingest_series]
      obtain ⟨h1, h2, h3⟩ := ingest_run_write_fails conf series_type
        conf.max_series_per_run false st h
      exact ⟨h1, h2, h3, ingest_run_files_after_flag conf series_type
        conf.max_series_per_run false st⟩
  | some m =>
      by_cases hm : m ≤ 0
      · simp only [ingest_series]
        rw [if_pos hm, if_pos hm]
        exact ⟨rfl, rfl, rfl, rfl⟩
      · simp only [ingest_series]
        rw [if_neg hm, if_neg hm]
        obtain ⟨h1, h2, h3⟩ := ingest_run_write_fails conf series_type m.toNat true st h
        exact ⟨h1, h2, h3, ingest_run_files_after_flag conf series_type m.toNat true st⟩

theorem claim_C7_witness :
    demoStateWriteFail.write_fails = true
  ∧ ((ingest_series demoConf "labeled" none demoStateWriteFail).ingested = 0
    ∧ (ingest_series demoConf "labeled" none demoStateWriteFail).store
        = demoStateWriteFail.store
    ∧ (ingest_series demoConf "labeled" none demoStateWriteFail).store_written = false
    ∧ (ingest_series demoConf "labeled" none demoStateWriteFail).files_after
        = (ingest_series demoConf "labeled" none
            { demoStateWriteFail with write_fails := false }).files_after) :=
  ⟨by decide,
    claim_C7_persistence_failure demoConf "labeled" none demoStateWriteFail (by decide)⟩

/-! ### Claim C8: empty candidate set -/

/-- C8: when the input directory holds no file of the configured extension,
the run returns the zero summary immediately (ingested, valid, malformed
and duplicated counts all 0) and neither rewrites the output store nor
touches the input directory. -/
theorem claim_C8_empty_directory (conf : DataIngestionConfiguration)
    (series_type : String) (arg : Option Int) (st : IngestState)
    (h : candidateFiles (resolveCurrentType conf series_type) st.files = []) :
    (ingest_series conf series_type arg st).ingested = 0
  ∧ (ingest_series conf series_type arg st).valid = 0
  ∧ (ingest_series conf series_type arg st).malformed = 0
  ∧ (ingest_series conf series_type arg st).duplicated = 0
  ∧ (ingest_series conf series_type arg st).store = st.store
  ∧ (ingest_series conf series_type arg st).store_written = false
  ∧ (ingest_series conf series_type arg st).files_after = st.files := by
  cases arg with
  | none =>
      simp only [ingest_series, ingest_run, h]
      simp
  | some m =>
      by_cases hm : m ≤ 0
      · simp only [ingest_series]
        rw [if_pos hm]
        exact ⟨rfl, rfl, rfl, rfl, rfl, rfl, rfl⟩
      · simp only [ingest_series]
        rw [if_neg hm]
        simp only [ingest_run, h]
        simp

theorem claim_C8_witness :
    candidateFiles (resolveCurrentType demoConf "labeled") demoStateNoCandidates.files = []
  ∧ ((ingest_series demoConf "labeled" none demoStateNoCandidates).ingested = 0
    ∧ (ingest_series demoConf "labeled" none demoStateNoCandidates).valid = 0
    ∧ (ingest_series demoConf "labeled" none demoStateNoCandidates).malformed = 0
    ∧ (ingest_series demoConf "labeled" none demoStateNoCandidates).duplicated = 0
    ∧ (ingest_series demoConf "labeled" none demoStateNoCandidates).store
        = demoStateNoCandidates.store
    ∧ (ingest_series demoConf "labeled" none demoStateNoCandidates).store_written = false
    ∧ (ingest_series demoConf "labeled" none demoStateNoCandidates).files_after
        = demoStateNoCandidates.files) :=
  ⟨by decide,
    claim_C8_empty_directory demoConf "labeled" none demoStateNoCandidates (by decide)⟩

/-! ### Claim C10: a run whose new rows are all duplicates -/

theorem ingest_run_all_duplicated (conf : DataIngestionConfiguration) (stype : String)
    (ms : Nat) (ex : Bool) (st : IngestState)
    (h : (ingest_run conf stype ms ex st).duplicated
        = (ingest_run conf stype ms ex st).valid) :
    (ingest_run conf stype ms ex st).ingested = 0
  ∧ (ingest_run conf stype ms ex st).store = st.store
  ∧ (ingest_run conf stype ms ex st).store_written = false := by
  simp only [ingest_run] at h ⊢
  revert h
  repeat' split
  all_goals intro h
  all_goals try exact ⟨rfl, rfl, rfl⟩
  all_goals dsimp only at *
  all_goals exfalso
  all_goals omega

/-- C10: in a run where duplicate filtering flags every newly appended
valid row (the duplicated count equals the valid count, so the ingested
count drops to 0), the store file is not rewritten at all: the persisted
rows stay exactly the pre run rows, and the run returns an ingested count
of 0. -/
theorem claim_C10_all_new_rows_duplicated (conf : DataIngestionConfiguration)
    (series_type : String) (arg : Option Int) (st : IngestState)
    (h : (ingest_series conf series_type arg st).duplicated
        = (ingest_series conf series_type arg st).valid) :
    (ingest_series conf series_type arg st).ingested = 0
  ∧ (ingest_series conf series_type arg st).store = st.store
  ∧ (ingest_series conf series_type arg st).store_written = false := by
  cases arg with
  | none =>
      simp only [ingest_series] at h ⊢
      exact ingest_run_all_duplicated conf series_type conf.max_series_per_run false st h
  | some m =>
      by_cases hm : m ≤ 0
      · simp only [ingest_series] at h ⊢
        rw [if_pos hm]
        exact ⟨rfl, rfl, rfl⟩
      · simp only [ingest_series] at h ⊢
        rw [if_neg hm] at h ⊢
        exact ingest_run_all_duplicated conf series_type m.toNat true st h

theorem claim_C10_witness :
    (ingest_series demoConf "labeled" none demoStatePreMatch).duplicated
        = (ingest_series demoConf "labeled" none demoStatePreMatch).valid
  ∧ ((ingest_series demoConf "labeled" none demoStatePreMatch).ingested = 0
    ∧ (ingest_series demoConf "labeled" none demoStatePreMatch).store
        = demoStatePreMatch.store
    ∧ (ingest_series demoConf "labeled" none demoStatePreMatch).store_written = false) :=
  ⟨by decide,
    claim_C10_all_new_rows_duplicated demoConf "labeled" none demoStatePreMatch (by decide)⟩
